import Mathlib

/-!
Shallow embedding of `start.py` from the `sast-compose` repository.

The script orchestrates five fixed SAST scanner containers: it checks image
presence (`docker image inspect`), pulls on miss (`docker pull`), optionally
logs in (`docker login`), runs each scanner (`docker run`), records the
expected output filename on a zero exit, and finally merges the recorded JSON
files into one list written with 4-space indentation.

External effects are modelled explicitly:
  * a process oracle `List String → ProcResult` gives the outcome of each
    `subprocess.run` invocation (keyed by the full argument vector);
  * a file-system oracle `String → FileContent` gives, for each path handed to
    `open`, whether the file is missing, holds malformed JSON, or holds a
    parsed JSON value (CPython's `json.load` is external library code, so its
    parse result is an oracle; its serializer `json.dump(..., indent=4)` is
    embedded below because the claims constrain the written bytes);
  * every `subprocess.run`, `open`-for-read and final write is recorded as an
    `Event`, so ordering claims are statements about the event trace.

Python exceptions are an `Except PyErr` result; `sys.exit` and uncaught
exceptions are distinguished in the whole-run `Outcome`.
-/

namespace SastCompose

/-- JSON values as produced by `json.load`.  Numbers are modelled as integers
(the claims only involve integer numbers); Python `True`/`False`/`None`
round-trip to `bool`/`null`. -/
inductive Json where
  | null : Json
  | bool (b : Bool) : Json
  | num (n : Int) : Json
  | str (s : String) : Json
  | arr (elems : List Json) : Json
  | obj (members : List (String × Json)) : Json
  deriving Repr

/-- The Python exceptions that the script can raise or catch. -/
inductive PyErr where
  /-- `subprocess.CalledProcessError` from `check=True` on a non-zero exit. -/
  | calledProcessError (exitCode : Nat) : PyErr
  /-- `FileNotFoundError`: a missing executable in `subprocess.run`, or a
  missing file in `open`. -/
  | fileNotFoundError (what : String) : PyErr
  /-- `json.JSONDecodeError` from `json.load` on malformed content. -/
  | jsonDecodeError : PyErr
  /-- `TypeError`: `Path(None)`, or `list.extend` on a non-iterable. -/
  | typeError : PyErr
  deriving Repr, DecidableEq

/-- Outcome of one `subprocess.run` invocation.  `completed c` is a process
that ran and exited with code `c`; `execNotFound` is CPython failing to spawn
the executable at all (e.g. `docker` not installed), which surfaces as
`FileNotFoundError`, not as `CalledProcessError`. -/
inductive ProcResult where
  | completed (exitCode : Nat) : ProcResult
  | execNotFound : ProcResult
  deriving Repr, DecidableEq

/-- What `open(path)` followed by `json.load` sees at a path. -/
inductive FileContent where
  | missing : FileContent
  | malformed : FileContent
  | json (value : Json) : FileContent
  deriving Repr

/-- Observable side effects of a run, in order. -/
inductive Event where
  | exec (args : List String) : Event
  | readFile (path : String) : Event
  | writeFile (path : String) (content : String) : Event
  deriving Repr, DecidableEq

/-! ### CPython `json.dump(value, f, indent=4)`

Embedded from the documented behaviour of the standard library with default
separators: items separated by `",\n"`, keys by `": "`, each nesting level
indented 4 further spaces, empty containers rendered inline, `ensure_ascii`
escaping for strings. -/

/-- Lowercase hex digit. -/
def hexDigit (n : Nat) : Char :=
  if n < 10 then Char.ofNat (48 + n) else Char.ofNat (87 + n)

/-- Four lowercase hex digits, as in CPython's `\uXXXX` escapes. -/
def hex4 (n : Nat) : String :=
  String.mk [hexDigit (n / 4096 % 16), hexDigit (n / 256 % 16),
             hexDigit (n / 16 % 16), hexDigit (n % 16)]

/-- Escape one character the way `json.dump` (default `ensure_ascii=True`)
does: printable ASCII passes through, known control characters use the short
escape, everything else becomes `\uXXXX` (a surrogate pair above U+FFFF). -/
def escapeChar (c : Char) : String :=
  if c = '"' then "\\\""
  else if c = '\\' then "\\\\"
  else if c = '\n' then "\\n"
  else if c = '\t' then "\\t"
  else if c = '\r' then "\\r"
  else if c.toNat = 8 then "\\b"
  else if c.toNat = 12 then "\\f"
  else if c.toNat < 32 then "\\u" ++ hex4 c.toNat
  else if c.toNat < 127 then String.singleton c
  else if c.toNat < 65536 then "\\u" ++ hex4 c.toNat
  else
    let v := c.toNat - 65536
    "\\u" ++ hex4 (55296 + v / 1024) ++ "\\u" ++ hex4 (56320 + v % 1024)

/-- A JSON string literal as `json.dump` writes it. -/
def quoteString (s : String) : String :=
  "\"" ++ String.join (s.data.map escapeChar) ++ "\""

/-- `4 * d` spaces: the indentation at nesting depth `d` for `indent=4`. -/
def pad (d : Nat) : String :=
  String.mk (List.replicate (4 * d) ' ')

mutual

/-- Serialize a JSON value at nesting depth `d`, as `json.dump(v, f, indent=4)`
does. -/
def dumpJson : Json → Nat → String
  | .null, _ => "null"
  | .bool true, _ => "true"
  | .bool false, _ => "false"
  | .num n, _ => toString n
  | .str s, _ => quoteString s
  | .arr [], _ => "[]"
  | .arr (x :: xs), d => "[\n" ++ dumpElems (x :: xs) (d + 1) ++ "\n" ++ pad d ++ "]"
  | .obj [], _ => "\x7b\x7d"
  | .obj (kv :: kvs), d =>
      "\x7b\n" ++ dumpMembers (kv :: kvs) (d + 1) ++ "\n" ++ pad d ++ "\x7d"

/-- Array elements, one per line at depth `d`, separated by `",\n"`. -/
def dumpElems : List Json → Nat → String
  | [], _ => ""
  | [x], d => pad d ++ dumpJson x d
  | x :: y :: xs, d => pad d ++ dumpJson x d ++ ",\n" ++ dumpElems (y :: xs) d

/-- Object members, one per line at depth `d`, `"key": value`, separated by
`",\n"`. -/
def dumpMembers : List (String × Json) → Nat → String
  | [], _ => ""
  | [(k, v)], d => pad d ++ quoteString k ++ ": " ++ dumpJson v d
  | (k, v) :: m :: ms, d =>
      pad d ++ quoteString k ++ ": " ++ dumpJson v d ++ ",\n" ++ dumpMembers (m :: ms) d

end

/-- `json.dump(value, f, indent=4)`: the exact string written. -/
def jsonDumpIndent4 (v : Json) : String := dumpJson v 0

/-! ### Path resolution

`open` on a relative path resolves it against the process's current working
directory; an absolute path is used as is. -/

/-- A POSIX-absolute path: it begins with `/`. -/
def isAbsolutePath (p : String) : Bool :=
  p.data.head? == some '/'

/-- Host path seen by `open(p)` when the process's working directory is
`cwd`. -/
def resolvePath (cwd p : String) : String :=
  if isAbsolutePath p then p else cwd ++ "/" ++ p

/-! ### The fixed scanner table (`Worker.run_scanners`, lines 50-71) -/

/-- One entry of the hard-coded `scanners` dict: name, image, and the command
appended after the `docker run` preamble. -/
structure Scanner where
  name : String
  image : String
  command : List String
  deriving Repr, DecidableEq

/-- The five scanner definitions, in dict insertion order (Python 3.7+ dicts
iterate in insertion order).  In the source the horusec entry contains the
adjacent string literals `"-o=json"", -O=/src/horusec_output.json"`, which
CPython concatenates into the single element below. -/
def scanners : List Scanner :=
  [ { name := "semgrep", image := "returntocorp/semgrep",
      command := ["semgrep", "scan", "--json", "--output=/src/semgrep_output.json"] },
    { name := "horusec", image := "horussecurity/horusec",
      command := ["horusec", "start", "--project-path=/src",
                  "-o=json, -O=/src/horusec_output.json", "-D=true"] },
    { name := "infer", image := "facebook/infer",
      command := ["--output", "/src/infer_output.json"] },
    { name := "insider", image := "insider/insider",
      command := ["--output", "/src/insider_output.json"] },
    { name := "gitleaks", image := "zricethezav/gitleaks",
      command := ["--report-path", "/src/gitleaks_output.json"] } ]

/-- `["docker", "image", "inspect", image]`. -/
def inspectCommand (image : String) : List String :=
  ["docker", "image", "inspect", image]

/-- `["docker", "pull", image]`. -/
def pullCommand (image : String) : List String :=
  ["docker", "pull", image]

/-- `["docker", "login", "-u", username, "-p", password]`. -/
def loginCommand (u p : String) : List String :=
  ["docker", "login", "-u", u, "-p", p]

/-- The `docker run` argument vector built at lines 81-86: input directory
bind-mounted at `/src`, working directory `/src`, then the scanner's own
command. -/
def runCommandFor (inputDir : String) (s : Scanner) : List String :=
  ["docker", "run", "--rm", "-v", inputDir ++ ":/src", "-w", "/src", s.image]
    ++ s.command

/-! ### Worker operations -/

/-- The process oracle: the outcome each `subprocess.run` invocation would
have, keyed by its full argument vector. -/
abbrev ProcOracle := List String → ProcResult

/-- `Worker.check_image` (lines 20-27): runs `docker image inspect` with
`check=True`; returns `True` on exit 0, catches `CalledProcessError` (any
non-zero exit) and returns `False`.  A failure to spawn the executable raises
`FileNotFoundError`, which the `except` clause does not cover. -/
def check_image (proc : ProcOracle) (image : String) :
    List Event × Except PyErr Bool :=
  ([.exec (inspectCommand image)],
   match proc (inspectCommand image) with
   | .completed 0 => .ok true
   | .completed _ => .ok false
   | .execNotFound => .error (.fileNotFoundError "docker"))

/-- `Worker.pull_image` (lines 29-36): runs `docker pull` with `check=True`;
on any exit code it returns normally (a `CalledProcessError` is caught and
logged).  Only a failure to spawn the executable escapes, as
`FileNotFoundError`. -/
def pull_image (proc : ProcOracle) (image : String) :
    List Event × Except PyErr Unit :=
  ([.exec (pullCommand image)],
   match proc (pullCommand image) with
   | .completed _ => .ok ()
   | .execNotFound => .error (.fileNotFoundError "docker"))

/-- Python truthiness of an `Optional[str]`: `None` and `""` are falsy. -/
def truthy : Option String → Bool
  | none => false
  | some s => !s.isEmpty

/-- How one `Worker` run ends. -/
inductive Outcome where
  /-- `sys.exit code`. -/
  | exited (code : Nat) : Outcome
  /-- An uncaught exception (the interpreter prints a traceback). -/
  | uncaught (e : PyErr) : Outcome
  /-- Normal completion; `output` is the string written to the output file. -/
  | completed (output : String) : Outcome
  deriving Repr

/-- `Worker.docker_login` (lines 38-47): only when username and password are
both truthy, run `docker login`; on `CalledProcessError` (non-zero exit) call
`sys.exit(1)`.  Returns `some o` when the process ends here, `none` when
execution continues. -/
def docker_login (proc : ProcOracle) (username password : Option String) :
    List Event × Option Outcome :=
  if truthy username && truthy password then
    let cmd := loginCommand (username.getD "") (password.getD "")
    ([.exec cmd],
     match proc cmd with
     | .completed 0 => none
     | .completed _ => some (.exited 1)
     | .execNotFound => some (.uncaught (.fileNotFoundError "docker")))
  else ([], none)

/-- The body of the `for name, details in scanners.items()` loop (lines
75-92) for one scanner: inspect, pull on miss, run the container, and record
`f"{name}_output.json"` exactly when the run exits 0.  An uncaught exception
(`FileNotFoundError` from a missing executable) aborts with `.error`. -/
def scannerStep (proc : ProcOracle) (inputDir : String) (s : Scanner) :
    List Event × Except PyErr (List String) :=
  let (tr1, chk) := check_image proc s.image
  match chk with
  | .error e => (tr1, .error e)
  | .ok present =>
    let (tr2, pulled) := if present then ([], .ok ()) else pull_image proc s.image
    match pulled with
    | .error e => (tr1 ++ tr2, .error e)
    | .ok _ =>
      let cmd := runCommandFor inputDir s
      (tr1 ++ tr2 ++ [.exec cmd],
       match proc cmd with
       | .completed 0 => .ok [s.name ++ "_output.json"]
       | .completed _ => .ok []
       | .execNotFound => .error (.fileNotFoundError "docker"))

/-- The whole scanner loop: `scannerStep` over a scanner list, concatenating
recorded filenames in iteration order; an exception aborts the loop. -/
def scannersLoop (proc : ProcOracle) (inputDir : String) :
    List Scanner → List Event × Except PyErr (List String)
  | [] => ([], .ok [])
  | s :: rest =>
    let (tr, r) := scannerStep proc inputDir s
    match r with
    | .error e => (tr, .error e)
    | .ok recorded =>
      let (tr2, r2) := scannersLoop proc inputDir rest
      (tr ++ tr2,
       match r2 with
       | .error e => .error e
       | .ok files => .ok (recorded ++ files))

/-! ### The merge (`Worker.merge_json_files`, lines 96-105) -/

/-- `merged_data.extend(data)`: Python `list.extend` iterates its argument.
A list contributes its elements, a dict its keys (strings), a string its
characters (one-character strings); `int`, `float`, `bool` and `None` are not
iterable and raise `TypeError`. -/
def pyExtend : Json → Except PyErr (List Json)
  | .arr xs => .ok xs
  | .obj kvs => .ok (kvs.map fun kv => .str kv.1)
  | .str s => .ok (s.data.map fun c => .str (String.singleton c))
  | .num _ => .error .typeError
  | .bool _ => .error .typeError
  | .null => .error .typeError

/-- The `for json_file in json_files` loop of `merge_json_files`: open each
file (relative names resolve against `cwd`), `json.load` it, and extend the
accumulator.  There is no `try` around the body, so a missing file, malformed
JSON, or a non-iterable value aborts the loop with the exception. -/
def mergeLoop (cwd : String) (fs : String → FileContent) :
    List String → List Json → List Event × Except PyErr (List Json)
  | [], acc => ([], .ok acc)
  | f :: rest, acc =>
    let path := resolvePath cwd f
    let ev : Event := .readFile path
    match fs path with
    | .missing => ([ev], .error (.fileNotFoundError path))
    | .malformed => ([ev], .error .jsonDecodeError)
    | .json v =>
      match pyExtend v with
      | .error e => ([ev], .error e)
      | .ok xs =>
        let (evs, r) := mergeLoop cwd fs rest (acc ++ xs)
        (ev :: evs, r)

/-- `Worker.merge_json_files` (lines 96-105): accumulate the recorded files'
contents, then — only if no exception occurred — write the merged list to the
output path with `json.dump(merged_data, f, indent=4)`.  The result carries
the written string; `.error` means the process died with no write at all. -/
def merge_json_files (cwd : String) (fs : String → FileContent)
    (outputFile : String) (json_files : List String) :
    List Event × Except PyErr String :=
  match mergeLoop cwd fs json_files [] with
  | (evs, .ok merged) =>
    let content := jsonDumpIndent4 (.arr merged)
    (evs ++ [.writeFile (resolvePath cwd outputFile) content], .ok content)
  | (evs, .error e) => (evs, .error e)

/-! ### Whole-run model (`Worker.run_scanners` and `main`) -/

/-- The external world of one run: a process oracle, the host file system as
seen at merge time, and the process's working directory. -/
structure Env where
  proc : ProcOracle
  fs : String → FileContent
  cwd : String

/-- The parsed `Worker` state (`Worker.__init__`): both paths converted with
`Path(...)` (modelled as the identity on strings). -/
structure Worker where
  input_dir : String
  output_file : String
  username : Option String
  password : Option String
  deriving Repr

/-- `Worker.run_scanners` (lines 49-94): the scanner loop over the fixed
table, then `merge_json_files` on the recorded filenames. -/
def run_scanners (env : Env) (w : Worker) : List Event × Except PyErr String :=
  let (tr, r) := scannersLoop env.proc w.input_dir scanners
  match r with
  | .error e => (tr, .error e)
  | .ok json_files =>
    let (tr2, r2) := merge_json_files env.cwd env.fs w.output_file json_files
    (tr ++ tr2, r2)

/-! ### Argument parsing (`main`, lines 108-117) -/

/-- One `parser.add_argument` call: flag names and whether argparse treats
the option as required.  None of the four calls passes `required=True`, so
all four records carry `required := false`. -/
structure ArgSpec where
  short : String
  long : String
  required : Bool
  deriving Repr, DecidableEq

/-- The four `add_argument` calls, in source order. -/
def argTable : List ArgSpec :=
  [ { short := "-i", long := "--input_dir", required := false },
    { short := "-o", long := "--output_file", required := false },
    { short := "-u", long := "--username", required := false },
    { short := "-p", long := "--password", required := false } ]

/-- The `args` namespace produced by `parser.parse_args()`: every optional
argument not supplied defaults to `None`. -/
structure Args where
  input_dir : Option String
  output_file : Option String
  username : Option String
  password : Option String
  deriving Repr, DecidableEq

/-- `parser.parse_args()`, applied to the values supplied on the command line
(`provided long` is `some v` when the flag with that long name was given).
argparse rejects the invocation only when a `required` option is absent;
otherwise the missing options default to `None`. -/
def parse_args (provided : String → Option String) : Option Args :=
  if argTable.all (fun a => !a.required || (provided a.long).isSome) then
    some { input_dir := provided "--input_dir",
           output_file := provided "--output_file",
           username := provided "--username",
           password := provided "--password" }
  else none

/-- `Worker(args.input_dir, args.output_file, ...)`: `Path(None)` raises
`TypeError`, so construction fails unless both paths are strings. -/
def mkWorker (a : Args) : Except PyErr Worker :=
  match a.input_dir, a.output_file with
  | some i, some o =>
      .ok { input_dir := i, output_file := o,
            username := a.username, password := a.password }
  | _, _ => .error .typeError

/-- `main` after argument parsing (lines 117-123): construct the `Worker`,
log in when both credentials are truthy, then `run_scanners`. -/
def main (env : Env) (a : Args) : List Event × Outcome :=
  match mkWorker a with
  | .error e => ([], .uncaught e)
  | .ok w =>
    let (tr0, stop) :=
      if truthy a.username && truthy a.password then
        docker_login env.proc w.username w.password
      else ([], none)
    match stop with
    | some o => (tr0, o)
    | none =>
      let (tr, r) := run_scanners env w
      (tr0 ++ tr,
       match r with
       | .ok content => .completed content
       | .error e => .uncaught e)

/-! ### Helper predicates used in theorem statements -/

/-- The process ran to completion (so `check=True` at worst raises
`CalledProcessError`, never `FileNotFoundError`). -/
def ranToCompletion : ProcResult → Bool
  | .completed _ => true
  | .execNotFound => false

/-- The process ran and exited non-zero: a "failed" container run. -/
def failedRun : ProcResult → Bool
  | .completed c => c != 0
  | .execNotFound => false

/-- Opening this path raises, or `json.load` on it raises: the file is
missing or holds malformed JSON. -/
def fileBad (fs : String → FileContent) (path : String) : Bool :=
  match fs path with
  | .missing => true
  | .malformed => true
  | .json _ => false

/-- `list.extend` accepts the value without raising. -/
def extendOk : Json → Bool
  | .arr _ => true
  | .obj _ => true
  | .str _ => true
  | _ => false

/-- The file parses and its value extends the accumulator without raising. -/
def fileGood (fs : String → FileContent) (path : String) : Bool :=
  match fs path with
  | .json v => extendOk v
  | _ => false

/-! ### Concrete fixtures used by witnesses and counterexamples -/

/-- A docker that has every image cached (`inspect` exits 0) but where every
container run exits 1. -/
def demoProcAllFail : ProcOracle := fun args =>
  if args.take 3 = ["docker", "image", "inspect"] then .completed 0
  else .completed 1

/-- A docker with all images cached and every container run exiting 0. -/
def demoProcAllPass : ProcOracle := fun _ => .completed 0

/-- The per-file contents of the spec's merge example, as element lists. -/
def demoGAB : String → List Json := fun f =>
  if f = "a.json" then [.obj [("x", .num 1)]] else [.obj [("y", .num 2)]]

/-- A docker whose `login` fails with exit 1; everything else exits 0. -/
def demoProcBadLogin : ProcOracle := fun args =>
  if args.take 2 = ["docker", "login"] then .completed 1 else .completed 0

/-- A docker where `semgrep`'s image is absent (`inspect` exits 1) and
everything else exits 0. -/
def demoProcSemgrepMissing : ProcOracle := fun args =>
  if args = inspectCommand "returntocorp/semgrep" then .completed 1
  else .completed 0

/-- The file system of the spec's merge example: `a.json = [{"x":1}]` and
`b.json = [{"y":2}]` under working directory `/cwd`; nothing else exists. -/
def demoFsAB : String → FileContent := fun p =>
  if p = "/cwd/a.json" then .json (.arr [.obj [("x", .num 1)]])
  else if p = "/cwd/b.json" then .json (.arr [.obj [("y", .num 2)]])
  else .missing

/-- A file system exercising every `list.extend` shape: an array, an object,
a string, a number and a `null`, keyed under `/cwd`. -/
def demoFsShapes : String → FileContent := fun p =>
  if p = "/cwd/arr.json" then .json (.arr [.num 7, .str "v"])
  else if p = "/cwd/obj.json" then .json (.obj [("k1", .num 3), ("k2", .num 4)])
  else if p = "/cwd/str.json" then .json (.str "ab")
  else if p = "/cwd/num.json" then .json (.num 5)
  else if p = "/cwd/null.json" then .json .null
  else .missing

/-- An empty-file-system environment in which every image is cached and every
scanner run fails: the spec's all-scanners-fail scenario. -/
def demoEnvAllFail : Env :=
  { proc := demoProcAllFail, fs := fun _ => .missing, cwd := "/tmp/src" }

/-- The all-scanners-fail invocation: `/tmp/src`, `/tmp/out.json`, no
credentials. -/
def demoArgsNoCreds : Args :=
  { input_dir := some "/tmp/src", output_file := some "/tmp/out.json",
    username := none, password := none }

/-- An invocation carrying credentials. -/
def demoArgsCreds : Args :=
  { input_dir := some "/tmp/src", output_file := some "/tmp/out.json",
    username := some "user", password := some "pw" }

/-- Environment for the failed-login scenario. -/
def demoEnvBadLogin : Env :=
  { proc := demoProcBadLogin, fs := fun _ => .missing, cwd := "/tmp/src" }

/-! ## Shared lemmas -/

/-- Right cancellation for string concatenation. -/
lemma string_append_cancel_right (a b c : String) (h : a ++ c = b ++ c) :
    a = b := by
  have hd := congrArg String.data h
  simp [String.data_append] at hd
  exact String.ext hd

/-- A truthy optional string is a non-empty string. -/
lemma truthy_iff (o : Option String) :
    truthy o = true ↔ ∃ u, o = some u ∧ u ≠ "" := by
  cases o with
  | none => simp [truthy]
  | some u =>
    simp only [truthy, Bool.not_eq_true']
    constructor
    · intro h
      refine ⟨u, rfl, fun h2 => ?_⟩
      subst h2
      cases h
    · rintro ⟨v, hv, hne⟩
      cases hv
      rcases hb : u.isEmpty with _ | _
      · rfl
      · exact absurd ((String.isEmpty_iff u).mp hb) hne

/-- What `mkWorker` preserves. -/
lemma mkWorker_ok {a : Args} {w : Worker} (h : mkWorker a = .ok w) :
    a.input_dir = some w.input_dir ∧ a.output_file = some w.output_file ∧
    w.username = a.username ∧ w.password = a.password := by
  cases hi : a.input_dir with
  | none => simp [mkWorker, hi] at h
  | some i =>
    cases ho : a.output_file with
    | none => simp [mkWorker, hi, ho] at h
    | some o =>
      simp only [mkWorker, hi, ho] at h
      cases h
      exact ⟨rfl, rfl, rfl, rfl⟩

/-- Every event the merge loop emits is a file read at the `cwd`-resolved
path of one of its input filenames. -/
lemma mergeLoop_events_read (cwd : String) (fs : String → FileContent) :
    ∀ (files : List String) (acc : List Json),
      ∀ ev ∈ (mergeLoop cwd fs files acc).1,
        ∃ f ∈ files, ev = .readFile (resolvePath cwd f) := by
  intro files
  induction files with
  | nil => intro acc ev hev; simp [mergeLoop] at hev
  | cons f rest ih =>
    intro acc ev hev
    rcases hc : fs (resolvePath cwd f) with _ | _ | v
    · simp [mergeLoop, hc] at hev
      exact ⟨f, by simp, hev⟩
    · simp [mergeLoop, hc] at hev
      exact ⟨f, by simp, hev⟩
    · rcases he : pyExtend v with e | xs
      · simp [mergeLoop, hc, he] at hev
        exact ⟨f, by simp, hev⟩
      · simp only [mergeLoop, hc, he] at hev
        rcases hm : mergeLoop cwd fs rest (acc ++ xs) with ⟨evs, r⟩
        rw [hm] at hev
        simp at hev
        rcases hev with rfl | hev
        · exact ⟨f, by simp, rfl⟩
        · obtain ⟨g, hg, rfl⟩ := ih (acc ++ xs) ev (by rw [hm]; exact hev)
          exact ⟨g, by simp [hg], rfl⟩

/-- If any input file is missing or malformed, the merge loop ends in an
uncaught exception. -/
lemma mergeLoop_error_of_bad (cwd : String) (fs : String → FileContent) :
    ∀ (files : List String) (acc : List Json),
      (∃ f ∈ files, fileBad fs (resolvePath cwd f) = true) →
      ∃ e, (mergeLoop cwd fs files acc).2 = .error e := by
  intro files
  induction files with
  | nil => rintro acc ⟨f, hf, _⟩; simp at hf
  | cons f rest ih =>
    rintro acc ⟨g, hg, hbad⟩
    rcases hc : fs (resolvePath cwd f) with _ | _ | v
    · exact ⟨.fileNotFoundError (resolvePath cwd f), by simp [mergeLoop, hc]⟩
    · exact ⟨.jsonDecodeError, by simp [mergeLoop, hc]⟩
    · rcases he : pyExtend v with e | xs
      · exact ⟨e, by simp [mergeLoop, hc, he]⟩
      · simp at hg
        rcases hg with rfl | hg
        · simp [fileBad, hc] at hbad
        · obtain ⟨e, hrec⟩ := ih (acc ++ xs) ⟨g, hg, hbad⟩
          refine ⟨e, ?_⟩
          simp only [mergeLoop, hc, he]
          rcases hm : mergeLoop cwd fs rest (acc ++ xs) with ⟨evs, r⟩
          rw [hm] at hrec
          simpa using hrec

/-- When a prefix of readable, extendable files is followed by a missing or
malformed file, the merge loop reads exactly the prefix and the offending
file, then aborts: files after the first failure are never opened. -/
lemma mergeLoop_good_prefix (cwd : String) (fs : String → FileContent)
    (f : String) (hbad : fileBad fs (resolvePath cwd f) = true) :
    ∀ (pre post : List String) (acc : List Json),
      (∀ g ∈ pre, fileGood fs (resolvePath cwd g) = true) →
      (mergeLoop cwd fs (pre ++ f :: post) acc).1 =
        (pre ++ [f]).map (fun x => Event.readFile (resolvePath cwd x)) ∧
      ∃ e, (mergeLoop cwd fs (pre ++ f :: post) acc).2 = .error e := by
  intro pre
  induction pre with
  | nil =>
    intro post acc _
    rcases hc : fs (resolvePath cwd f) with _ | _ | v
    · exact ⟨by simp [mergeLoop, hc],
        ⟨.fileNotFoundError (resolvePath cwd f), by simp [mergeLoop, hc]⟩⟩
    · exact ⟨by simp [mergeLoop, hc], ⟨.jsonDecodeError, by simp [mergeLoop, hc]⟩⟩
    · simp [fileBad, hc] at hbad
  | cons g rest ih =>
    intro post acc hgood
    have hg := hgood g (by simp)
    rcases hc : fs (resolvePath cwd g) with _ | _ | v
    · simp [fileGood, hc] at hg
    · simp [fileGood, hc] at hg
    · rcases he : pyExtend v with e | xs
      · simp only [fileGood, hc] at hg
        cases v <;> simp_all [extendOk, pyExtend]
      · have hrest := ih post (acc ++ xs) (fun x hx => hgood x (by simp [hx]))
        rcases hm : mergeLoop cwd fs (rest ++ f :: post) (acc ++ xs) with ⟨evs, r⟩
        rw [hm] at hrest
        obtain ⟨e, hre⟩ := hrest.2
        refine ⟨?_, ⟨e, ?_⟩⟩ <;>
          simp only [List.cons_append, mergeLoop, hc, he, List.append_eq] <;>
          rw [hm]
        · simpa using hrest.1
        · simpa using hre

/-- When every input file holds a JSON array, the merge loop reads all files
in order and concatenates their elements in that order. -/
lemma mergeLoop_all_arrays (cwd : String) (fs : String → FileContent)
    (g : String → List Json) :
    ∀ (files : List String) (acc : List Json),
      (∀ f ∈ files, fs (resolvePath cwd f) = .json (.arr (g f))) →
      mergeLoop cwd fs files acc =
        (files.map (fun f => Event.readFile (resolvePath cwd f)),
         .ok (acc ++ files.flatMap g)) := by
  intro files
  induction files with
  | nil => intro acc _; simp [mergeLoop]
  | cons f rest ih =>
    intro acc h
    have hf := h f (by simp)
    have hrest := ih (acc ++ g f) (fun x hx => h x (by simp [hx]))
    simp only [mergeLoop, hf, pyExtend, hrest]
    simp

/-- One scanner step records either nothing or exactly the scanner's
expected bare output filename. -/
lemma scannerStep_recorded (proc : ProcOracle) (dir : String) (s : Scanner)
    {recorded : List String}
    (h : (scannerStep proc dir s).2 = .ok recorded) :
    recorded = [] ∨ recorded = [s.name ++ "_output.json"] := by
  rcases hi : proc (inspectCommand s.image) with c | _
  · rcases hr : proc (runCommandFor dir s) with k | _
    · rcases hp : proc (pullCommand s.image) with p | _
      · cases c <;> cases k <;>
          simp_all [scannerStep, check_image, pull_image, hi, hp, hr]
      · cases c <;> cases k <;>
          simp_all [scannerStep, check_image, pull_image, hi, hp, hr]
    · rcases hp : proc (pullCommand s.image) with p | _ <;>
        cases c <;> simp_all [scannerStep, check_image, pull_image, hi, hp, hr]
  · simp_all [scannerStep, check_image, hi]

/-- If every scanner's image check, pull and container run at least spawn,
and every container run exits non-zero, the loop records no filenames. -/
lemma scannersLoop_all_fail (proc : ProcOracle) (dir : String) :
    ∀ ss : List Scanner,
      (∀ s ∈ ss, ranToCompletion (proc (inspectCommand s.image)) = true ∧
        ranToCompletion (proc (pullCommand s.image)) = true ∧
        failedRun (proc (runCommandFor dir s)) = true) →
      (scannersLoop proc dir ss).2 = .ok [] := by
  intro ss
  induction ss with
  | nil => intro _; rfl
  | cons s rest ih =>
    intro h
    obtain ⟨h1, h2, h3⟩ := h s (by simp)
    have ihr := ih (fun t ht => h t (by simp [ht]))
    rcases hk : scannersLoop proc dir rest with ⟨tr2, r2⟩
    rw [hk] at ihr
    simp only at ihr
    subst ihr
    rcases hi : proc (inspectCommand s.image) with c | _
    · rcases hr : proc (runCommandFor dir s) with k | _
      · rw [hr] at h3
        have hk0 : k ≠ 0 := by simpa [failedRun] using h3
        rcases hp : proc (pullCommand s.image) with p | _
        · cases c <;> cases k <;>
            simp_all [scannersLoop, scannerStep, check_image, pull_image,
              hi, hp, hr, hk]
        · rw [hp] at h2; simp [ranToCompletion] at h2
      · rw [hr] at h3; simp [failedRun] at h3
    · rw [hi] at h1; simp [ranToCompletion] at h1

/-- If every image is present (inspect exits 0) and every container run
exits 0, the loop records every scanner's bare output filename, in
declaration order. -/
lemma scannersLoop_all_zero (proc : ProcOracle) (dir : String) :
    ∀ ss : List Scanner,
      (∀ s ∈ ss, proc (inspectCommand s.image) = .completed 0 ∧
        proc (runCommandFor dir s) = .completed 0) →
      (scannersLoop proc dir ss).2 =
        .ok (ss.map fun s => s.name ++ "_output.json") := by
  intro ss
  induction ss with
  | nil => intro _; rfl
  | cons s rest ih =>
    intro h
    obtain ⟨h1, h2⟩ := h s (by simp)
    have ihr := ih (fun t ht => h t (by simp [ht]))
    rcases hk : scannersLoop proc dir rest with ⟨tr2, r2⟩
    rw [hk] at ihr
    simp only at ihr
    subst ihr
    simp [scannersLoop, scannerStep, check_image, h1, h2, hk]

/-- Every filename the loop records is some listed scanner's bare
`{name}_output.json`. -/
lemma scannersLoop_files_bare (proc : ProcOracle) (dir : String) :
    ∀ (ss : List Scanner) (files : List String),
      (scannersLoop proc dir ss).2 = .ok files →
      ∀ f ∈ files, ∃ s ∈ ss, f = s.name ++ "_output.json" := by
  intro ss
  induction ss with
  | nil =>
    intro files h f hf
    simp only [scannersLoop] at h
    cases h
    simp at hf
  | cons s rest ih =>
    intro files h f hf
    rcases hstep : scannerStep proc dir s with ⟨tr, r⟩
    rcases hk : scannersLoop proc dir rest with ⟨tr2, r2⟩
    simp only [scannersLoop, hstep, hk] at h
    rcases r with e | recorded
    · simp at h
    · rcases r2 with e2 | files2
      · simp at h
      · simp only at h
        cases h
        have hrec : (scannerStep proc dir s).2 = .ok recorded := by
          rw [hstep]
        rcases List.mem_append.mp hf with hf1 | hf2
        · rcases scannerStep_recorded proc dir s hrec with rfl | rfl
          · simp at hf1
          · simp at hf1
            exact ⟨s, by simp, hf1⟩
        · obtain ⟨t, ht, rfl⟩ := ih files2 (by rw [hk]) f hf2
          exact ⟨t, by simp [ht], rfl⟩

/-! ## Claim C6: `check_image` on failure -/

/-- C6, counterexample: when the container engine cannot be spawned at all
(the `docker` executable is missing), `check_image` does not return `false`:
the `FileNotFoundError` escapes the function, because its `except` clause
catches only `CalledProcessError`. -/
theorem check_image_engine_missing_escapes :
    (check_image (fun _ => ProcResult.execNotFound) "returntocorp/semgrep").2 =
      .error (.fileNotFoundError "docker") ∧
    ∀ b : Bool,
      (check_image (fun _ => ProcResult.execNotFound) "returntocorp/semgrep").2 ≠
        .ok b := by
  refine ⟨rfl, fun b h => ?_⟩
  simp [check_image] at h

/-- C6, amended: `check_image` returns `false` exactly on a non-zero exit of
the `docker image inspect` query (absent image, malformed reference and any
other non-zero exit are not distinguished), and `true` on exit 0; but a
failure to spawn the engine executable is a `FileNotFoundError` that escapes
the function rather than yielding `false`. -/
theorem check_image_false_iff_nonzero_exit (proc : ProcOracle) (img : String) :
    (∀ c : Nat, proc (inspectCommand img) = .completed c →
      (check_image proc img).2 = .ok (c == 0)) ∧
    (proc (inspectCommand img) = .execNotFound →
      (check_image proc img).2 = .error (.fileNotFoundError "docker")) := by
  constructor
  · intro c h
    cases c with
    | zero => simp [check_image, h]
    | succ c => simp [check_image, h]
  · intro h
    simp [check_image, h]

/-- C6, witness: the amended theorem applied to concrete oracles: exit 0
gives `true`, exit 2 gives `false`, a missing engine escapes. -/
theorem check_image_false_iff_nonzero_exit_witness :
    (check_image (fun _ => ProcResult.completed 2) "facebook/infer").2 =
      .ok false ∧
    (check_image (fun _ => ProcResult.completed 0) "facebook/infer").2 =
      .ok true ∧
    (check_image (fun _ => ProcResult.execNotFound) "facebook/infer").2 =
      .error (.fileNotFoundError "docker") :=
  ⟨(check_image_false_iff_nonzero_exit (fun _ => ProcResult.completed 2)
      "facebook/infer").1 2 rfl,
   (check_image_false_iff_nonzero_exit (fun _ => ProcResult.completed 0)
      "facebook/infer").1 0 rfl,
   (check_image_false_iff_nonzero_exit (fun _ => ProcResult.execNotFound)
      "facebook/infer").2 rfl⟩

/-! ## Claim C7: `pull_image` on failure -/

/-- C7, counterexample: `pull_image` can raise to its caller: when the engine
executable cannot be spawned, the `FileNotFoundError` is not caught (the
`except` clause covers only `CalledProcessError`), so the function does not
return normally. -/
theorem pull_image_exec_error_escapes :
    (pull_image (fun _ => ProcResult.execNotFound) "returntocorp/semgrep").2 =
      .error (.fileNotFoundError "docker") ∧
    (pull_image (fun _ => ProcResult.execNotFound) "returntocorp/semgrep").2 ≠
      .ok () := by
  refine ⟨rfl, fun h => ?_⟩
  simp [pull_image] at h

/-- C7, amended: whenever the `docker pull` process itself runs (any exit
code, success or failure), `pull_image` returns normally — a failed pull is
logged and swallowed — and the orchestration then invokes the scanner's
container run regardless of the pull's exit code.  Only failure to spawn the
engine executable raises. -/
theorem pull_image_completed_never_raises (proc : ProcOracle) :
    (∀ img c, proc (pullCommand img) = .completed c →
      (pull_image proc img).2 = .ok ()) ∧
    (∀ dir s c r, proc (inspectCommand s.image) = .completed c → c ≠ 0 →
      proc (pullCommand s.image) = .completed r →
      Event.exec (runCommandFor dir s) ∈ (scannerStep proc dir s).1) := by
  constructor
  · intro img c h
    simp [pull_image, h]
  · intro dir s c r hi hc hp
    cases c with
    | zero => exact absurd rfl hc
    | succ c =>
      cases hr : proc (runCommandFor dir s) with
      | completed k =>
        cases k <;>
          simp [scannerStep, check_image, pull_image, hi, hp, hr]
      | execNotFound =>
        simp [scannerStep, check_image, pull_image, hi, hp, hr]

/-- C7, witness: with an engine whose pull of the absent semgrep image exits
1, `pull_image` returns normally and the semgrep container run is still
attempted. -/
theorem pull_image_completed_never_raises_witness :
    (pull_image demoProcSemgrepMissing "returntocorp/semgrep").2 = .ok () ∧
    Event.exec (runCommandFor "/tmp/src"
        { name := "semgrep", image := "returntocorp/semgrep",
          command := ["semgrep", "scan", "--json",
                      "--output=/src/semgrep_output.json"] }) ∈
      (scannerStep demoProcSemgrepMissing "/tmp/src"
        { name := "semgrep", image := "returntocorp/semgrep",
          command := ["semgrep", "scan", "--json",
                      "--output=/src/semgrep_output.json"] }).1 :=
  ⟨(pull_image_completed_never_raises demoProcSemgrepMissing).1
      "returntocorp/semgrep" 0 rfl,
   (pull_image_completed_never_raises demoProcSemgrepMissing).2
      "/tmp/src" _ 1 0 rfl (by decide) rfl⟩

/-! ## Claim C8: required flags -/

/-- C8, counterexample: the invocation that omits every flag is not rejected
by argument parsing — `parse_args` accepts it and yields `None` for all four
options, because no `add_argument` call passes `required=True`. -/
theorem parse_args_accepts_empty_invocation :
    parse_args (fun _ => none) =
      some { input_dir := none, output_file := none,
             username := none, password := none } ∧
    (parse_args (fun _ => none)).isSome = true :=
  ⟨rfl, rfl⟩

/-- C8, amended: none of the four flags is marked required, so argument
parsing accepts every invocation (including ones omitting `-i` or `-o`,
which default to `None`); the program then proceeds to construct the run
configuration, where `Path(None)` raises `TypeError`.  `-u`/`-p` are
optional as claimed. -/
theorem required_flags_unenforced_fail_at_worker
    (provided : String → Option String) :
    (parse_args provided).isSome = true ∧
    (∀ spec ∈ argTable, spec.required = false) ∧
    (∀ a, parse_args provided = some a →
      a.input_dir = none ∨ a.output_file = none →
      mkWorker a = .error .typeError) := by
  refine ⟨rfl, by decide, fun a ha hor => ?_⟩
  rcases hor with h | h
  · simp [mkWorker, h]
  · cases hi : a.input_dir <;> simp [mkWorker, h, hi]

/-- C8, witness: parsing the empty invocation succeeds with all options
`None`, and the subsequent `Worker` construction raises `TypeError`. -/
theorem required_flags_unenforced_witness :
    (parse_args (fun _ => none)).isSome = true ∧
    mkWorker { input_dir := none, output_file := none,
               username := none, password := none } = .error .typeError :=
  ⟨(required_flags_unenforced_fail_at_worker (fun _ => none)).1,
   (required_flags_unenforced_fail_at_worker (fun _ => none)).2.2
     { input_dir := none, output_file := none,
       username := none, password := none } rfl (Or.inl rfl)⟩

/-! ## Claim C10: `list.extend` semantics in the merge -/

/-- C10: the merge accumulator extends by whatever the file parses to, with
Python `list.extend` semantics: a JSON array contributes its elements, an
object contributes its key strings only, a string contributes its characters
as one-character strings, and a number or `null` raises `TypeError`, aborting
the merge. -/
theorem merge_extend_shape_semantics (cwd : String)
    (fs : String → FileContent) (out f : String) (acc : List Json) :
    (∀ xs, fs (resolvePath cwd f) = .json (.arr xs) →
      (mergeLoop cwd fs [f] acc).2 = .ok (acc ++ xs)) ∧
    (∀ kvs, fs (resolvePath cwd f) = .json (.obj kvs) →
      (mergeLoop cwd fs [f] acc).2 =
        .ok (acc ++ kvs.map fun kv => Json.str kv.1)) ∧
    (∀ s, fs (resolvePath cwd f) = .json (.str s) →
      (mergeLoop cwd fs [f] acc).2 =
        .ok (acc ++ s.data.map fun c => Json.str (String.singleton c))) ∧
    (∀ n, fs (resolvePath cwd f) = .json (.num n) →
      (merge_json_files cwd fs out [f]).2 = .error .typeError) ∧
    (fs (resolvePath cwd f) = .json .null →
      (merge_json_files cwd fs out [f]).2 = .error .typeError) := by
  refine ⟨fun xs h => ?_, fun kvs h => ?_, fun s h => ?_, fun n h => ?_,
          fun h => ?_⟩ <;>
    simp [mergeLoop, merge_json_files, pyExtend, h]

/-- C10, witness: the four shapes on concrete files: an array file keeps its
elements, an object file contributes `"k1", "k2"`, a string file contributes
`"a", "b"`, and number and `null` files abort the merge with `TypeError`. -/
theorem merge_extend_shape_semantics_witness :
    (mergeLoop "/cwd" demoFsShapes ["arr.json"] []).2 =
      .ok [.num 7, .str "v"] ∧
    (mergeLoop "/cwd" demoFsShapes ["obj.json"] []).2 =
      .ok [.str "k1", .str "k2"] ∧
    (mergeLoop "/cwd" demoFsShapes ["str.json"] []).2 =
      .ok [.str "a", .str "b"] ∧
    (merge_json_files "/cwd" demoFsShapes "out.json" ["num.json"]).2 =
      .error .typeError ∧
    (merge_json_files "/cwd" demoFsShapes "out.json" ["null.json"]).2 =
      .error .typeError :=
  ⟨(merge_extend_shape_semantics "/cwd" demoFsShapes "out.json" "arr.json"
      []).1 [.num 7, .str "v"] rfl,
   (merge_extend_shape_semantics "/cwd" demoFsShapes "out.json" "obj.json"
      []).2.1 [("k1", .num 3), ("k2", .num 4)] rfl,
   (merge_extend_shape_semantics "/cwd" demoFsShapes "out.json" "str.json"
      []).2.2.1 "ab" rfl,
   (merge_extend_shape_semantics "/cwd" demoFsShapes "out.json" "num.json"
      []).2.2.2.1 5 rfl,
   (merge_extend_shape_semantics "/cwd" demoFsShapes "out.json" "null.json"
      []).2.2.2.2 rfl⟩

/-! ## Claim C1: a missing or malformed recorded file aborts the merge -/

/-- C1: if any recorded filename is missing or holds malformed JSON, the
merge propagates an uncaught error (it never silently skips the file), files
after the first failing one are not even opened, and no output file is
written at all — the error branch of `merge_json_files` emits no
`writeFile` event. -/
theorem merge_missing_or_malformed_aborts (cwd : String)
    (fs : String → FileContent) (out : String) (files : List String) :
    ((∃ f ∈ files, fileBad fs (resolvePath cwd f) = true) →
      (∃ e, (merge_json_files cwd fs out files).2 = .error e) ∧
      ∀ p c, Event.writeFile p c ∉ (merge_json_files cwd fs out files).1) ∧
    (∀ pre f post, files = pre ++ f :: post →
      (∀ g ∈ pre, fileGood fs (resolvePath cwd g) = true) →
      fileBad fs (resolvePath cwd f) = true →
      (merge_json_files cwd fs out files).1 =
        (pre ++ [f]).map fun x => Event.readFile (resolvePath cwd x)) := by
  constructor
  · intro hbad
    obtain ⟨e, he⟩ := mergeLoop_error_of_bad cwd fs files [] hbad
    rcases hm : mergeLoop cwd fs files [] with ⟨evs, r⟩
    rw [hm] at he
    simp only at he
    subst he
    refine ⟨⟨e, by simp [merge_json_files, hm]⟩, fun p c hmem => ?_⟩
    simp only [merge_json_files, hm] at hmem
    obtain ⟨f, _, heq⟩ :=
      mergeLoop_events_read cwd fs files [] _ (by rw [hm]; exact hmem)
    simp at heq
  · intro pre f post hfiles hgood hbad
    subst hfiles
    have h := mergeLoop_good_prefix cwd fs f hbad pre post [] hgood
    rcases hm : mergeLoop cwd fs (pre ++ f :: post) [] with ⟨evs, r⟩
    rw [hm] at h
    obtain ⟨e, he⟩ := h.2
    simp only at he
    subst he
    simpa [merge_json_files, hm] using h.1

/-- C1, witness: with `a.json` readable but `zzz.json` absent, the merge of
`["a.json", "zzz.json", "b.json"]` errors, writes nothing, and never opens
`b.json`. -/
theorem merge_missing_or_malformed_aborts_witness :
    (∃ e, (merge_json_files "/cwd" demoFsAB "out.json"
        ["a.json", "zzz.json", "b.json"]).2 = .error e) ∧
    (∀ p c, Event.writeFile p c ∉ (merge_json_files "/cwd" demoFsAB
        "out.json" ["a.json", "zzz.json", "b.json"]).1) ∧
    (merge_json_files "/cwd" demoFsAB "out.json"
        ["a.json", "zzz.json", "b.json"]).1 =
      [.readFile "/cwd/a.json", .readFile "/cwd/zzz.json"] := by
  have h := merge_missing_or_malformed_aborts "/cwd" demoFsAB "out.json"
    ["a.json", "zzz.json", "b.json"]
  have h1 := h.1 ⟨"zzz.json", by simp, rfl⟩
  refine ⟨h1.1, h1.2, ?_⟩
  have h2 := h.2 ["a.json"] "zzz.json" ["b.json"] rfl
    (fun g hg => by simp at hg; subst hg; rfl) rfl
  exact h2.trans (by decide)

/-! ## Claim C2: all scanners fail, empty merged output -/

/-- C2: in a run with no credentials in which every scanner's processes
spawn but every container run exits non-zero, no filenames are recorded,
and the run still completes normally, writing exactly `[]` to the
`cwd`-resolved configured output file. -/
theorem no_creds_all_runs_fail_writes_empty_array (env : Env) (a : Args)
    (i o : String)
    (hi : a.input_dir = some i) (ho : a.output_file = some o)
    (hu : a.username = none) (hp : a.password = none)
    (hs : ∀ s ∈ scanners,
      ranToCompletion (env.proc (inspectCommand s.image)) = true ∧
      ranToCompletion (env.proc (pullCommand s.image)) = true ∧
      failedRun (env.proc (runCommandFor i s)) = true) :
    (scannersLoop env.proc i scanners).2 = .ok [] ∧
    (main env a).2 = .completed "[]" ∧
    Event.writeFile (resolvePath env.cwd o) "[]" ∈ (main env a).1 := by
  have hloop := scannersLoop_all_fail env.proc i scanners hs
  have hw : mkWorker a =
      .ok { input_dir := i, output_file := o, username := none,
            password := none } := by
    simp [mkWorker, hi, ho, hu, hp]
  rcases hk : scannersLoop env.proc i scanners with ⟨tr, r⟩
  rw [hk] at hloop
  simp only at hloop
  subst hloop
  have hmerge : merge_json_files env.cwd env.fs o [] =
      ([.writeFile (resolvePath env.cwd o) "[]"], .ok "[]") := rfl
  refine ⟨by simp [hk], ?_, ?_⟩ <;>
    simp [main, hw, truthy, hu, hp, run_scanners, hk, hmerge]

/-- C2, witness: the spec's end-to-end scenario with `/tmp/src`,
`/tmp/out.json`, no credentials and every container run exiting 1. -/
theorem no_creds_all_runs_fail_witness :
    (scannersLoop demoEnvAllFail.proc "/tmp/src" scanners).2 = .ok [] ∧
    (main demoEnvAllFail demoArgsNoCreds).2 = .completed "[]" ∧
    Event.writeFile "/tmp/out.json" "[]" ∈
      (main demoEnvAllFail demoArgsNoCreds).1 := by
  have h := no_creds_all_runs_fail_writes_empty_array demoEnvAllFail
    demoArgsNoCreds "/tmp/src" "/tmp/out.json" rfl rfl rfl rfl
    (by intro s hs; fin_cases hs <;> exact ⟨rfl, rfl, rfl⟩)
  exact ⟨h.1, h.2.1, h.2.2⟩

/-! ## Claim C3: failed login exits 1 before any scanner -/

/-- C3: if both credentials are supplied (truthy) and `docker login` exits
non-zero, the run is exactly one `docker login` invocation followed by
`sys.exit(1)` — no scanner command ever runs; and conversely, `sys.exit` with
a non-zero code happens only on this path (and only with code 1): every
other ending is either normal completion or an uncaught exception. -/
theorem failed_login_exits_one_before_scanners (env : Env) (a : Args) :
    (∀ i o u p c, a.input_dir = some i → a.output_file = some o →
      a.username = some u → a.password = some p → u ≠ "" → p ≠ "" →
      env.proc (loginCommand u p) = .completed c → c ≠ 0 →
      main env a = ([.exec (loginCommand u p)], .exited 1)) ∧
    (∀ k, (main env a).2 = .exited k →
      k = 1 ∧ ∃ u p c, a.username = some u ∧ a.password = some p ∧
        u ≠ "" ∧ p ≠ "" ∧
        env.proc (loginCommand u p) = .completed c ∧ c ≠ 0) := by
  constructor
  · intro i o u p c hi ho hu hp hune hpne hl hc
    have hw : mkWorker a =
        .ok { input_dir := i, output_file := o, username := a.username,
              password := a.password } := by
      simp [mkWorker, hi, ho]
    have htu : truthy a.username = true := (truthy_iff _).mpr ⟨u, hu, hune⟩
    have htp : truthy a.password = true := (truthy_iff _).mpr ⟨p, hp, hpne⟩
    have htu2 : truthy (some u) = true := hu ▸ htu
    have htp2 : truthy (some p) = true := hp ▸ htp
    cases c with
    | zero => exact absurd rfl hc
    | succ c =>
      simp [main, hw, docker_login, htu, htp, hu, hp, htu2, htp2, hl]
  · intro k hk
    rcases hw : mkWorker a with e | w
    · simp [main, hw] at hk
    · obtain ⟨hwi, hwo, hwu, hwp⟩ := mkWorker_ok hw
      rcases hc : (truthy a.username && truthy a.password) with _ | _
      · simp only [main, hw, hc, Bool.false_eq_true, if_false] at hk
        rcases hr : run_scanners env w with ⟨tr, r⟩
        rw [hr] at hk
        rcases r with e2 | s2 <;> simp at hk
      · obtain ⟨htu, htp⟩ := Bool.and_eq_true_iff.mp hc
        obtain ⟨u, hu, hune⟩ := (truthy_iff _).mp htu
        obtain ⟨p, hp, hpne⟩ := (truthy_iff _).mp htp
        have htu2 : truthy (some u) = true := hu ▸ htu
        have htp2 : truthy (some p) = true := hp ▸ htp
        simp only [main, hw, hc, if_true, docker_login, hwu, hwp, hu, hp,
          htu2, htp2, Bool.and_self, Option.getD_some] at hk
        rcases hl : env.proc (loginCommand u p) with c | _
        · rw [hl] at hk
          cases c with
          | zero =>
            simp only at hk
            rcases hr : run_scanners env w with ⟨tr, r⟩
            rw [hr] at hk
            rcases r with e2 | s2 <;> simp at hk
          | succ c =>
            simp only at hk
            refine ⟨by injection hk.symm, u, p, c + 1, hu, hp, hune, hpne,
              hl, Nat.succ_ne_zero c⟩
        · rw [hl] at hk
          simp at hk

/-- C3, witness: with a registry rejecting `docker login` (exit 1) and both
credentials supplied, the whole run is one login invocation and
`sys.exit(1)`. -/
theorem failed_login_exits_witness :
    main demoEnvBadLogin demoArgsCreds =
      ([.exec (loginCommand "user" "pw")], .exited 1) :=
  (failed_login_exits_one_before_scanners demoEnvBadLogin demoArgsCreds).1
    "/tmp/src" "/tmp/out.json" "user" "pw" 1 rfl rfl rfl rfl
    (by decide) (by decide) rfl (by decide)

/-! ## Claim C4: the image check gates the pull -/

/-- C4: per scanner of the fixed table and per run, if `docker image
inspect` exits 0 the pull is never invoked; if it exits non-zero the pull is
invoked exactly once, and any container-run invocation of that scanner comes
after the pull in the event trace. -/
theorem inspect_gates_pull_exactly_once (proc : ProcOracle) (dir : String)
    (s : Scanner) (_hs : s ∈ scanners) :
    (proc (inspectCommand s.image) = .completed 0 →
      (scannerStep proc dir s).1.count (.exec (pullCommand s.image)) = 0) ∧
    (∀ c, proc (inspectCommand s.image) = .completed c → c ≠ 0 →
      (scannerStep proc dir s).1.count (.exec (pullCommand s.image)) = 1 ∧
      ∀ j, (scannerStep proc dir s).1.get? j =
          some (.exec (runCommandFor dir s)) →
        ∃ i2 < j, (scannerStep proc dir s).1.get? i2 =
          some (.exec (pullCommand s.image))) := by
  have hipC : inspectCommand s.image ≠ pullCommand s.image := by
    simp [inspectCommand, pullCommand]
  have hrpC : runCommandFor dir s ≠ pullCommand s.image := by
    simp [runCommandFor, pullCommand]
  have hirC : inspectCommand s.image ≠ runCommandFor dir s := by
    simp [inspectCommand, runCommandFor]
  have hip : (Event.exec (inspectCommand s.image)) ≠
      (Event.exec (pullCommand s.image)) := by simp [hipC]
  have hrp : (Event.exec (runCommandFor dir s)) ≠
      (Event.exec (pullCommand s.image)) := by simp [hrpC]
  have hir : (Event.exec (inspectCommand s.image)) ≠
      (Event.exec (runCommandFor dir s)) := by simp [hirC]
  constructor
  · intro hi
    have htr : (scannerStep proc dir s).1 =
        [.exec (inspectCommand s.image), .exec (runCommandFor dir s)] := by
      simp [scannerStep, check_image, hi]
    rw [htr, List.count_cons, List.count_cons, List.count_nil]
    simp [hipC, hrpC]
  · intro c hi hc
    cases c with
    | zero => exact absurd rfl hc
    | succ c =>
      rcases hp : proc (pullCommand s.image) with q | _
      · have htr : (scannerStep proc dir s).1 =
            [.exec (inspectCommand s.image), .exec (pullCommand s.image),
             .exec (runCommandFor dir s)] := by
          simp [scannerStep, check_image, pull_image, hi, hp]
        rw [htr]
        constructor
        · rw [List.count_cons, List.count_cons, List.count_cons,
            List.count_nil]
          simp [hipC, hrpC]
        · intro j hj
          match j with
          | 0 => exact absurd (Option.some.inj hj) hir
          | 1 => exact absurd (Option.some.inj hj) hrp.symm
          | 2 => exact ⟨1, by omega, rfl⟩
          | j + 3 => simp at hj
      · have htr : (scannerStep proc dir s).1 =
            [.exec (inspectCommand s.image), .exec (pullCommand s.image)] := by
          simp [scannerStep, check_image, pull_image, hi, hp]
        rw [htr]
        constructor
        · rw [List.count_cons, List.count_cons, List.count_nil]
          simp [hipC]
        · intro j hj
          match j with
          | 0 => exact absurd (Option.some.inj hj) hir
          | 1 => exact absurd (Option.some.inj hj) hrp.symm
          | j + 2 => simp at hj

/-- C4, witness: with semgrep's image absent (inspect exits 1), the step
pulls exactly once and runs the container after the pull; with the image
present it would pull zero times (shown on gitleaks, whose inspect exits
0). -/
theorem inspect_gates_pull_witness :
    (scannerStep demoProcSemgrepMissing "/tmp/src"
        { name := "gitleaks", image := "zricethezav/gitleaks",
          command := ["--report-path", "/src/gitleaks_output.json"] }).1.count
      (.exec (pullCommand "zricethezav/gitleaks")) = 0 ∧
    (scannerStep demoProcSemgrepMissing "/tmp/src"
        { name := "semgrep", image := "returntocorp/semgrep",
          command := ["semgrep", "scan", "--json",
                      "--output=/src/semgrep_output.json"] }).1.count
      (.exec (pullCommand "returntocorp/semgrep")) = 1 := by
  constructor
  · exact (inspect_gates_pull_exactly_once demoProcSemgrepMissing "/tmp/src"
      { name := "gitleaks", image := "zricethezav/gitleaks",
          command := ["--report-path", "/src/gitleaks_output.json"] } (by decide)).1 rfl
  · exact ((inspect_gates_pull_exactly_once demoProcSemgrepMissing "/tmp/src"
      { name := "semgrep", image := "returntocorp/semgrep",
          command := ["semgrep", "scan", "--json",
                      "--output=/src/semgrep_output.json"] } (by decide)).2 1 rfl (by decide)).1

/-! ## Claim C5: concatenation in scanner order, 4-space indentation -/

/-- C5: when all five scanners succeed, the recorded filenames are exactly
the five bare `{name}_output.json` names in the table's declaration order;
and the merge concatenates the parsed array contents of its files in that
list order, writing the concatenation to the configured output path as JSON
serialized with 4-space indentation. -/
theorem merge_concatenates_in_scanner_order :
    (∀ (proc : ProcOracle) (dir : String),
      (∀ s ∈ scanners, proc (inspectCommand s.image) = .completed 0 ∧
        proc (runCommandFor dir s) = .completed 0) →
      (scannersLoop proc dir scanners).2 =
        .ok (scanners.map fun s => s.name ++ "_output.json")) ∧
    (∀ (cwd : String) (fs : String → FileContent) (out : String)
        (files : List String) (g : String → List Json),
      (∀ f ∈ files, fs (resolvePath cwd f) = .json (.arr (g f))) →
      (merge_json_files cwd fs out files).2 =
        .ok (jsonDumpIndent4 (.arr (files.flatMap g))) ∧
      Event.writeFile (resolvePath cwd out)
          (jsonDumpIndent4 (.arr (files.flatMap g))) ∈
        (merge_json_files cwd fs out files).1) := by
  refine ⟨fun proc dir h => scannersLoop_all_zero proc dir scanners h,
    fun cwd fs out files g h => ?_⟩
  have hm := mergeLoop_all_arrays cwd fs g files [] h
  constructor <;> simp [merge_json_files, hm]

/-- C5, witness: all five scanners succeeding records the five names in
declaration order, and the spec's example merge — `a.json = [{"x":1}]`,
`b.json = [{"y":2}]` — produces exactly the indent-4 serialization of
`[{"x":1},{"y":2}]`. -/
theorem merge_concatenates_in_scanner_order_witness :
    (scannersLoop demoProcAllPass "/tmp/src" scanners).2 =
      .ok ["semgrep_output.json", "horusec_output.json", "infer_output.json",
           "insider_output.json", "gitleaks_output.json"] ∧
    (merge_json_files "/cwd" demoFsAB "out.json" ["a.json", "b.json"]).2 =
      .ok ("[\n    \x7b\n        \"x\": 1\n    \x7d,\n    \x7b\n        \"y\": 2\n    \x7d\n]") := by
  constructor
  · exact merge_concatenates_in_scanner_order.1 demoProcAllPass "/tmp/src"
      (by intro s hs; fin_cases hs <;> exact ⟨rfl, rfl⟩)
  · have h := (merge_concatenates_in_scanner_order.2 "/cwd" demoFsAB
      "out.json" ["a.json", "b.json"] demoGAB
      (by intro f hf; fin_cases hf <;> rfl)).1
    exact h.trans (by rfl)

/-! ## Claim C9: the merge opens bare relative filenames -/

/-- C9: every filename the scanner loop records is the bare relative
`{name}_output.json` (never an `input_dir`-joined path), the merge opens
each of them — and the output file — at the path resolved against the
process's current working directory, and for a relative name that resolved
path equals `cwd ++ "/" ++ name`, which coincides with the
`input_dir`-resolved path exactly when the working directory equals the
input directory. -/
theorem merge_opens_bare_names_against_cwd :
    (∀ (proc : ProcOracle) (dir : String) (files : List String),
      (scannersLoop proc dir scanners).2 = .ok files →
      ∀ f ∈ files, (∃ s ∈ scanners, f = s.name ++ "_output.json") ∧
        isAbsolutePath f = false) ∧
    (∀ (cwd : String) (fs : String → FileContent) (out : String)
        (files : List String),
      ∀ ev ∈ (merge_json_files cwd fs out files).1,
        (∃ f ∈ files, ev = .readFile (resolvePath cwd f)) ∨
        (∃ c, ev = .writeFile (resolvePath cwd out) c)) ∧
    (∀ cwd f, isAbsolutePath f = false →
      resolvePath cwd f = cwd ++ "/" ++ f ∧
      ∀ dir, (resolvePath cwd f = resolvePath dir f ↔ cwd = dir)) := by
  refine ⟨fun proc dir files hok f hf => ?_, fun cwd fs out files ev hev => ?_,
    fun cwd f habs => ?_⟩
  · obtain ⟨s, hs, rfl⟩ := scannersLoop_files_bare proc dir scanners files hok f hf
    refine ⟨⟨s, hs, rfl⟩, ?_⟩
    fin_cases hs <;> decide
  · rcases hm : mergeLoop cwd fs files [] with ⟨evs, r⟩
    have hread := mergeLoop_events_read cwd fs files []
    rcases r with e | merged
    · simp only [merge_json_files, hm] at hev
      exact Or.inl (hread ev (by rw [hm]; exact hev))
    · simp only [merge_json_files, hm] at hev
      rcases List.mem_append.mp hev with h1 | h2
      · exact Or.inl (hread ev (by rw [hm]; exact h1))
      · refine Or.inr ⟨jsonDumpIndent4 (.arr merged), ?_⟩
        simpa using h2
  · have hres : resolvePath cwd f = cwd ++ "/" ++ f := by
      simp [resolvePath, habs]
    refine ⟨hres, fun dir => ?_⟩
    have hres2 : resolvePath dir f = dir ++ "/" ++ f := by
      simp [resolvePath, habs]
    rw [hres, hres2]
    constructor
    · intro h
      exact string_append_cancel_right _ _ _
        (string_append_cancel_right _ _ _ (by simpa [String.append_assoc] using h))
    · intro h; rw [h]

/-- C9, witness: `semgrep_output.json` is a recorded bare relative name, and
its resolution from `/tmp/src` is `/tmp/src/semgrep_output.json`, which
differs from its resolution out of any other working directory. -/
theorem merge_opens_bare_names_witness :
    ((∃ s ∈ scanners, "semgrep_output.json" = s.name ++ "_output.json") ∧
      isAbsolutePath "semgrep_output.json" = false) ∧
    resolvePath "/tmp/src" "semgrep_output.json" =
      "/tmp/src/semgrep_output.json" ∧
    ¬ resolvePath "/other" "semgrep_output.json" =
        resolvePath "/tmp/src" "semgrep_output.json" := by
  refine ⟨?_, ?_, ?_⟩
  · exact merge_opens_bare_names_against_cwd.1 demoProcAllPass "/tmp/src"
      ["semgrep_output.json", "horusec_output.json", "infer_output.json",
       "insider_output.json", "gitleaks_output.json"]
      rfl "semgrep_output.json" (by decide)
  · exact (merge_opens_bare_names_against_cwd.2.2 "/tmp/src"
      "semgrep_output.json" (by decide)).1.trans (by decide)
  · intro h
    have := ((merge_opens_bare_names_against_cwd.2.2 "/other"
      "semgrep_output.json" (by decide)).2 "/tmp/src").mp h
    exact absurd this (by decide)

end SastCompose
